import Mathlib

/-!
Shallow embedding of apuslabs/deterministic-inference (Python) in Lean 4.

The repository is a local control plane: a backend process supervisor
(`backends/sglang.py`), an OpenAI-compatible HTTP proxy handler
(`proxy/handler.py`), an orchestrator (`server.py`, `cli.py`) and a GPU
environment snapshot collector (`environment.py`).  Pure data manipulation
is translated into executable Lean functions; stateful code (the supervisor)
becomes explicit state passing with oracles standing for the outside world
(process liveness, signals, waits); the Python standard library's
`json.loads` / `json.dumps` appear as function parameters, since they are
external collaborators of the code under verification.
-/

namespace DetInf

/-- Model of a Python value produced by `json.loads` / consumed by
`json.dumps`: JSON objects are insertion-ordered association lists, which
is how Python `dict`s behave. -/
inductive Json where
  | null : Json
  | bool : Bool → Json
  | num : ℚ → Json
  | str : String → Json
  | arr : List Json → Json
  | obj : List (String × Json) → Json

/-- Bytes are modelled as lists of natural numbers. -/
abbrev Bytes := List Nat

/-- Model of encoding an ASCII string to bytes (`str.encode("utf-8")`). -/
def strBytes (s : String) : Bytes := s.toList.map Char.toNat

/-- Top-level keys of a JSON value (empty for non-objects). -/
def Json.keys : Json → List String
  | .obj fs => fs.map Prod.fst
  | _ => []

/-- Lookup of a top-level key in a JSON object (`payload[k]` read). -/
def Json.getKey : Json → String → Option Json
  | .obj fs, k => (fs.find? (fun p => p.1 == k)).map Prod.snd
  | _, _ => none

/-- Python `dict` item assignment `d[k] = v`: overwrite in place when the
key is present, append at the end otherwise (insertion order preserved). -/
def dictSet (fs : List (String × Json)) (k : String) (v : Json) :
    List (String × Json) :=
  if fs.any (fun p => p.1 == k) then
    fs.map (fun p => if p.1 == k then (k, v) else p)
  else
    fs ++ [(k, v)]

/-- Decimal digit printer with explicit fuel (most significant first). -/
def natDigitsAux : Nat → Nat → List Char
  | 0, _ => []
  | fuel + 1, n =>
    if n < 10 then [Nat.digitChar n]
    else natDigitsAux fuel (n / 10) ++ [Nat.digitChar (n % 10)]

/-- Decimal digits of a natural number, most significant first. -/
def natDigits (n : Nat) : List Char := natDigitsAux (n + 1) n

/-- Escape of one character inside a JSON string literal, as the list of
characters `json.dumps` emits for it. -/
def escChars (c : Char) : List Char :=
  if c = '"' then ['\\', '"']
  else if c = '\\' then ['\\', '\\']
  else if c = '\n' then ['\\', 'n']
  else if c = '\t' then ['\\', 't']
  else if c = '\r' then ['\\', 'r']
  else if c.toNat = 8 then ['\\', 'b']
  else if c.toNat = 12 then ['\\', 'f']
  else if c.toNat < 32 then
    ['\\', 'u', '0', '0', Nat.digitChar (c.toNat / 16),
     Nat.digitChar (c.toNat % 16)]
  else [c]

/-- Rendering of a JSON string literal with quotes and escapes. -/
def strChars (s : String) : List Char :=
  '"' :: s.toList.flatMap escChars ++ ['"']

/-- Fraction digits (hundredths) without a trailing zero, zero-padded on
the left, mirroring how Python prints a two-decimal float. -/
def fracDigits (f : Nat) : List Char :=
  if f % 10 = 0 then natDigits (f / 10)
  else if f < 10 then '0' :: natDigits f
  else natDigits f

/-- Rendering of a JSON number: integers print without a fractional part;
non-integers print with up to two decimals (the snapshot only ever
produces denominators dividing 100, from `round(x, 2)`). -/
def numChars (q : ℚ) : List Char :=
  if q.den = 1 then
    (if q.num < 0 then ['-'] else []) ++ natDigits q.num.natAbs
  else
    (if q.num < 0 then ['-'] else []) ++
      natDigits (q.num.natAbs * (100 / q.den) / 100) ++
      '.' :: fracDigits (q.num.natAbs * (100 / q.den) % 100)

mutual
/-- Compact JSON serialisation as a character list, modelling
`json.dumps(..., separators=(",", ":"))`. -/
def renderChars : Json → List Char
  | .null => 'n' :: ['u', 'l', 'l']
  | .bool true => 't' :: ['r', 'u', 'e']
  | .bool false => 'f' :: ['a', 'l', 's', 'e']
  | .num q => numChars q
  | .str s => strChars s
  | .arr [] => ['[', ']']
  | .arr (x :: xs) => '[' :: elemsChars (x :: xs)
  | .obj [] => ['\x7b', '\x7d']
  | .obj (f :: fs) => '\x7b' :: fieldsChars (f :: fs)

/-- Comma-separated renderings of array elements, closed by `]`. -/
def elemsChars : List Json → List Char
  | [] => [']']
  | [x] => renderChars x ++ [']']
  | x :: xs => renderChars x ++ ',' :: elemsChars xs

/-- Comma-separated `key:value` renderings, closed by a brace. -/
def fieldsChars : List (String × Json) → List Char
  | [] => ['\x7d']
  | [(k, v)] => strChars k ++ ':' :: renderChars v ++ ['\x7d']
  | (k, v) :: fs => strChars k ++ ':' :: renderChars v ++ ',' :: fieldsChars fs
end

/-- Compact JSON serialisation, modelling
`json.dumps(..., separators=(",", ":"))` from `GPUEnvironment.to_json`. -/
def Json.render (j : Json) : String := String.mk (renderChars j)

/-! ### A JSON parser, used to state that rendered snapshots parse back -/

/-- Worker for `listStarts`, recursing on the needle. -/
def listStartsAux : List Char → List Char → Bool
  | [], _ => true
  | _ :: _, [] => false
  | b :: bs, a :: as => a == b && listStartsAux bs as

/-- Test whether `needle` occurs at the start of `hay` (character lists). -/
def listStarts (hay needle : List Char) : Bool :=
  listStartsAux needle hay

/-- Numeric value of a decimal digit character. -/
def digitVal (c : Char) : Nat := c.toNat - 48

/-- Decimal digit test. -/
def isDigitCh (c : Char) : Bool := 48 ≤ c.toNat && c.toNat ≤ 57

/-- Value of a most-significant-first decimal digit list. -/
def digitsToNat (ds : List Char) : Nat :=
  ds.foldl (fun a c => a * 10 + digitVal c) 0

/-- Split a character list into its leading run of decimal digits and the
remainder. -/
def takeDigits : List Char → List Char × List Char
  | [] => ([], [])
  | c :: cs =>
    if isDigitCh c then
      ((takeDigits cs).1.cons c, (takeDigits cs).2)
    else ([], c :: cs)

/-- Parse a JSON number token: optional minus, digits, optional fraction. -/
def parseNumTok (cs : List Char) : Option (ℚ × List Char) :=
  let neg : Bool := cs.head? = some '-'
  let cs1 : List Char := if cs.head? = some '-' then cs.tail else cs
  let p := takeDigits cs1
  if p.1 = [] then none
  else
    match p.2 with
    | '.' :: cs3 =>
      let pf := takeDigits cs3
      if pf.1 = [] then none
      else
        let mag : ℚ := (digitsToNat p.1 : ℚ) +
          (digitsToNat pf.1 : ℚ) / ((10 : ℚ) ^ pf.1.length)
        some ((if neg then -mag else mag), pf.2)
    | _ => some ((if neg then -(digitsToNat p.1 : ℚ) else
        (digitsToNat p.1 : ℚ)), p.2)

/-- Value of a hexadecimal digit character. -/
def parseHex (c : Char) : Option Nat :=
  if 48 ≤ c.toNat ∧ c.toNat ≤ 57 then some (c.toNat - 48)
  else if 97 ≤ c.toNat ∧ c.toNat ≤ 102 then some (c.toNat - 87)
  else if 65 ≤ c.toNat ∧ c.toNat ≤ 70 then some (c.toNat - 55)
  else none

/-- Parse the body of a JSON string after the opening quote: unescape
until the closing quote, returning the content and the remainder. -/
def parseStrBody : List Char → Option (List Char × List Char)
  | [] => none
  | c :: cs =>
    if c = '"' then some ([], cs)
    else if c = '\\' then
      match cs with
      | [] => none
      | e :: cs2 =>
        if e = '"' then (parseStrBody cs2).map (fun p => ('"' :: p.1, p.2))
        else if e = '\\' then
          (parseStrBody cs2).map (fun p => ('\\' :: p.1, p.2))
        else if e = 'n' then (parseStrBody cs2).map (fun p => ('\n' :: p.1, p.2))
        else if e = 't' then (parseStrBody cs2).map (fun p => ('\t' :: p.1, p.2))
        else if e = 'r' then (parseStrBody cs2).map (fun p => ('\r' :: p.1, p.2))
        else if e = 'b' then
          (parseStrBody cs2).map (fun p => (Char.ofNat 8 :: p.1, p.2))
        else if e = 'f' then
          (parseStrBody cs2).map (fun p => (Char.ofNat 12 :: p.1, p.2))
        else if e = 'u' then
          match cs2 with
          | h1 :: h2 :: h3 :: h4 :: cs3 =>
            match parseHex h1, parseHex h2, parseHex h3, parseHex h4 with
            | some a, some b, some c3, some d =>
              (parseStrBody cs3).map
                (fun p => (Char.ofNat (((a * 16 + b) * 16 + c3) * 16 + d) :: p.1, p.2))
            | _, _, _, _ => none
          | _ => none
        else none
    else (parseStrBody cs).map (fun p => (c :: p.1, p.2))
  termination_by cs => cs.length
  decreasing_by all_goals simp_wf <;> omega

/-- Strip an expected literal from the front of the input. -/
def stripLit (lit cs : List Char) : Option (List Char) :=
  if listStarts cs lit then some (cs.drop lit.length) else none

mutual
/-- Fuel-bounded recursive-descent parser for the compact JSON the
renderer emits (no interstitial whitespace). -/
def parseVal : Nat → List Char → Option (Json × List Char)
  | 0, _ => none
  | fuel + 1, cs =>
    match cs with
    | [] => none
    | c :: rest =>
      if c = '"' then
        (parseStrBody rest).map (fun p => (.str (String.mk p.1), p.2))
      else if c = '[' then
        match rest with
        | ']' :: r => some (.arr [], r)
        | _ => (parseElems fuel rest).map (fun p => (.arr p.1, p.2))
      else if c = '\x7b' then
        match rest with
        | '\x7d' :: r => some (.obj [], r)
        | _ => (parseFields fuel rest).map (fun p => (.obj p.1, p.2))
      else if c = 'n' then (stripLit ['n', 'u', 'l', 'l'] cs).map ((.null, ·))
      else if c = 't' then
        (stripLit ['t', 'r', 'u', 'e'] cs).map ((.bool true, ·))
      else if c = 'f' then
        (stripLit ['f', 'a', 'l', 's', 'e'] cs).map ((.bool false, ·))
      else (parseNumTok cs).map (fun p => (.num p.1, p.2))

/-- Parse one or more comma-separated values closed by `]`. -/
def parseElems : Nat → List Char → Option (List Json × List Char)
  | 0, _ => none
  | fuel + 1, cs =>
    match parseVal fuel cs with
    | none => none
    | some (j, rest) =>
      match rest with
      | ',' :: r => (parseElems fuel r).map (fun p => (j :: p.1, p.2))
      | ']' :: r => some ([j], r)
      | _ => none

/-- Parse one or more comma-separated `key:value` pairs closed by a
brace. -/
def parseFields : Nat → List Char → Option (List (String × Json) × List Char)
  | 0, _ => none
  | fuel + 1, cs =>
    match cs with
    | '"' :: cs1 =>
      match parseStrBody cs1 with
      | none => none
      | some (k, rest) =>
        match rest with
        | ':' :: r2 =>
          match parseVal fuel r2 with
          | none => none
          | some (v, r3) =>
            match r3 with
            | ',' :: r4 =>
              (parseFields fuel r4).map
                (fun p => ((String.mk k, v) :: p.1, p.2))
            | '\x7d' :: r4 => some ([(String.mk k, v)], r4)
            | _ => none
        | _ => none
    | _ => none
end

/-- Parse a complete JSON document: the whole input must be consumed. -/
def parseJsonStr (s : String) : Option Json :=
  match parseVal (s.data.length + 1) s.data with
  | some (j, []) => some j
  | _ => none

/-- Characters that may legitimately follow a rendered JSON value:
nothing (end of input), a separating comma, or a closing bracket. -/
def sepHead : List Char → Prop
  | [] => True
  | c :: _ => c = ',' ∨ c = ']' ∨ c = '\x7d'

/-- Well-formed JSON values for the render/parse round trip: every number
has a denominator dividing 100, which is all `round(x, 2)` can produce. -/
inductive Good : Json → Prop where
  | null : Good .null
  | bool (b : Bool) : Good (.bool b)
  | num (q : ℚ) (h : q.den ∣ 100) : Good (.num q)
  | str (s : String) : Good (.str s)
  | arr (xs : List Json) (h : ∀ x ∈ xs, Good x) : Good (.arr xs)
  | obj (fs : List (String × Json)) (h : ∀ f ∈ fs, Good f.2) : Good (.obj fs)

mutual
/-- Fuel needed by `parseVal` on a rendered value. -/
def wVal : Json → Nat
  | .null => 1
  | .bool _ => 1
  | .num _ => 1
  | .str _ => 1
  | .arr [] => 1
  | .arr (x :: xs) => 1 + wElems (x :: xs)
  | .obj [] => 1
  | .obj (f :: fs) => 1 + wFields (f :: fs)

/-- Fuel needed by `parseElems` on rendered elements. -/
def wElems : List Json → Nat
  | [] => 0
  | x :: xs => 1 + wVal x + wElems xs

/-- Fuel needed by `parseFields` on rendered fields. -/
def wFields : List (String × Json) → Nat
  | [] => 0
  | f :: fs => 1 + wVal f.2 + wFields fs
end

/-! ### environment.py -/

/-- Details about a single GPU device (`GPUInfo` dataclass). -/
structure GPUInfo where
  index : Nat
  name : String
  memory_total_bytes : Nat

/-- Model of Python `round(x, 2)`: round to two decimal places. -/
def roundTo2 (q : ℚ) : ℚ := ((round (q * 100) : ℤ) : ℚ) / 100

/-- Total memory in MiB (`GPUInfo.memory_total_mebibytes` property). -/
def GPUInfo.memory_total_mebibytes (g : GPUInfo) : ℚ :=
  roundTo2 ((g.memory_total_bytes : ℚ) / (1024 ^ 2))

/-- GPU environment snapshot collected at server start
(`GPUEnvironment` dataclass). -/
structure GPUEnvironment where
  driver_version : String
  cuda_version : String
  gpu_count : Nat
  gpus : List GPUInfo

/-- Dict for one GPU inside `GPUEnvironment.to_dict`. -/
def GPUInfo.to_dict (g : GPUInfo) : Json :=
  .obj [("index", .num g.index),
        ("name", .str g.name),
        ("memory_total_bytes", .num g.memory_total_bytes),
        ("memory_total_mib", .num g.memory_total_mebibytes)]

/-- Serialise the GPU environment to a dict (`GPUEnvironment.to_dict`). -/
def GPUEnvironment.to_dict (e : GPUEnvironment) : Json :=
  .obj [("driver_version", .str e.driver_version),
        ("cuda_version", .str e.cuda_version),
        ("gpu_count", .num e.gpu_count),
        ("gpus", .arr (e.gpus.map GPUInfo.to_dict))]

/-- Serialise the GPU environment as a JSON string
(`GPUEnvironment.to_json`). -/
def GPUEnvironment.to_json (e : GPUEnvironment) : String :=
  Json.render e.to_dict

/-! ### proxy/handler.py -/

/-- Model of Python `s.startswith(pre)`. -/
def strStarts (s pre : String) : Bool :=
  listStarts s.toList pre.toList

/-- Model of Python `s.lower()` (ASCII case folding). -/
def lowerStr (s : String) : String :=
  String.mk (s.toList.map Char.toLower)

/-- Test whether `needle` occurs contiguously anywhere inside `hay`,
modelling Python's `in` operator on strings. -/
def containsSeq (needle : List Char) : List Char → Bool
  | [] => listStarts [] needle
  | h :: t => listStarts (h :: t) needle || containsSeq needle t

/-- Model of `"application/json" in content_type.lower()`. -/
def jsonContentType (contentType : String) : Bool :=
  containsSeq "application/json".toList (lowerStr contentType).toList

/-- Case-insensitive header lookup with default `""`, modelling
`response_headers.get("Content-Type", "")` on an `email.message` object. -/
def headerGet (headers : List (String × String)) (k : String) : String :=
  match headers.find? (fun p => lowerStr p.1 == lowerStr k) with
  | some p => p.2
  | none => ""

/-- The proxy's view of the supervised backend: whether `is_running()`
holds and its base URL. -/
structure BackendView where
  running : Bool
  baseUrl : String

/-- Outcome of `urllib.request.urlopen` on the forwarded request:
a success response, an `HTTPError` carrying the backend's non-2xx reply,
a `URLError` (network-level failure), or any other exception. -/
inductive UpstreamResult where
  | success (status : Nat) (headers : List (String × String)) (body : Bytes)
  | httpError (code : Nat) (headers : List (String × String)) (body : Bytes)
  | urlError (msg : String)
  | exn (msg : String)

/-- The response the handler sends back to the client: status line,
headers in the order `send_header` was called, and the written body. -/
structure ClientResponse where
  status : Nat
  headers : List (String × String)
  body : Bytes
deriving DecidableEq

/-- Python exception raised by `payload["environment"] = ...` when
`json.loads` returned a non-`dict` value. -/
inductive PyErr where
  | typeError
deriving DecidableEq

/-- Error body built by `_send_error_response`: `detail` is appended to
the `error` object only when non-empty. -/
def errorJson (code : Nat) (message : String) (detail : String) : Json :=
  .obj [("error",
    .obj ([("code", .num code), ("message", .str message),
           ("type", .str "proxy_error")] ++
          (if detail = "" then [] else [("detail", .str detail)])))]

/-- Model of `_send_error_response`: JSON error response with the given
status code. `dumps` stands for `json.dumps(...).encode()`. -/
def send_error_response (dumps : Json → Bytes) (code : Nat)
    (message detail : String) : ClientResponse :=
  { status := code
    headers := [("Content-Type", "application/json")]
    body := dumps (errorJson code message detail) }

/-- Model of `do_POST`'s routing test: the path is accepted when it starts
with one of the two completion prefixes. -/
def isCompletionPath (path : String) : Bool :=
  strStarts path "/v1/completions" || strStarts path "/v1/chat/completions"

/-- Model of `_should_inject_environment`: requires a truthy
`environment_info` (non-`None`, non-empty) and a completion path. -/
def should_inject_environment (envInfo : Option String) (path : String) : Bool :=
  match envInfo with
  | none => false
  | some s => if s = "" then false else isCompletionPath path

/-- Model of `_inject_environment_payload`.  `parse` stands for
`json.loads(body.decode("utf-8"))`, returning `none` when decoding or
parsing raises (both caught, fail open).  A parsed non-object makes the
item assignment raise `TypeError`, which this function does not catch. -/
def inject_environment_payload (parse : Bytes → Option Json)
    (dumps : Json → Bytes) (envInfo : String) (body : Bytes)
    (contentType : String) : Except PyErr Bytes :=
  if jsonContentType contentType = false then .ok body
  else
    match parse body with
    | none => .ok body
    | some (.obj fs) => .ok (dumps (.obj (dictSet fs "environment" (.str envInfo))))
    | some _ => .error .typeError

/-- Header filter applied on the success path of `_proxy_to_backend`:
`connection`, `transfer-encoding` and `content-length` are always skipped,
and `content-encoding` is skipped when `should_inject` was true. -/
def relayHeaders (headers : List (String × String)) (shouldInject : Bool) :
    List (String × String) :=
  headers.filter (fun p =>
    let hl := lowerStr p.1
    !(hl == "connection" || hl == "transfer-encoding" ||
      hl == "content-length" || (hl == "content-encoding" && shouldInject)))

/-- Model of `_proxy_to_backend`.  Returns the client response together
with a flag recording whether an outbound network attempt was made.
`backend`/`envInfo` are the handler's class variables; `upstream` is the
oracle for the outbound call, consulted only when one is made. -/
def proxy_to_backend (backend : Option BackendView) (envInfo : Option String)
    (parse : Bytes → Option Json) (dumps : Json → Bytes)
    (path : String) (upstream : UpstreamResult) : ClientResponse × Bool :=
  let unavailable :=
    (send_error_response dumps 503 "Service Unavailable"
      "Backend inference server is not running", false)
  match backend with
  | none => unavailable
  | some b =>
    if b.running = false then unavailable
    else
      match upstream with
      | .success status headers body =>
        let si := should_inject_environment envInfo path
        let injected :=
          if si then
            inject_environment_payload parse dumps (envInfo.getD "") body
              (headerGet headers "Content-Type")
          else .ok body
        match injected with
        | .error _ =>
          (send_error_response dumps 500 "Internal Server Error"
            "unhandled exception while proxying", true)
        | .ok body2 =>
          ({ status := status
             headers := relayHeaders headers si ++
               [("Content-Length", toString body2.length)]
             body := body2 }, true)
      | .httpError code headers body =>
        ({ status := code
           headers := headers.filter (fun p =>
             let hl := lowerStr p.1
             !(hl == "connection" || hl == "transfer-encoding"))
           body := body }, true)
      | .urlError msg =>
        (send_error_response dumps 502 "Bad Gateway"
          ("Cannot connect to backend server: " ++ msg), true)
      | .exn msg =>
        (send_error_response dumps 500 "Internal Server Error" msg, true)

/-- Model of `do_POST`: completion-prefixed paths are proxied, everything
else receives a 404 error response and no network attempt is made. -/
def do_POST (backend : Option BackendView) (envInfo : Option String)
    (parse : Bytes → Option Json) (dumps : Json → Bytes)
    (path : String) (upstream : UpstreamResult) : ClientResponse × Bool :=
  if isCompletionPath path then
    proxy_to_backend backend envInfo parse dumps path upstream
  else
    (send_error_response dumps 404 "Not Found"
      ("Endpoint " ++ path ++ " not supported"), false)

/-- Body of `_send_health_response`. `healthy` is the oracle for
`backend.health_check()`. -/
def healthJson (backend : Option BackendView) (healthy : Bool) : Json :=
  .obj [("status", .str "healthy"),
        ("backend", .obj
          [("status", .str (match backend with
             | some b => if b.running then "ready" else "not_ready"
             | none => "not_ready")),
           ("healthy", .bool (match backend with
             | some _ => healthy
             | none => false)),
           ("url", match backend with
             | some b => .str b.baseUrl
             | none => .null)])]

/-- Model of `_send_health_response`: always a 200 JSON response. -/
def send_health_response (backend : Option BackendView) (healthy : Bool)
    (dumps : Json → Bytes) : ClientResponse :=
  { status := 200
    headers := [("Content-Type", "application/json")]
    body := dumps (healthJson backend healthy) }

/-- Model of `do_GET`: only the exact path `/health` is served, everything
else receives a 404 error response. -/
def do_GET (backend : Option BackendView) (healthy : Bool)
    (dumps : Json → Bytes) (path : String) : ClientResponse :=
  if path = "/health" then send_health_response backend healthy dumps
  else
    send_error_response dumps 404 "Not Found"
      ("Endpoint " ++ path ++ " not found")

/-! ### backends/sglang.py

The supervisor (`SGLangBackend`) is stateful; its mutable fields become an
explicit state record, and the outside world (process liveness, signal
delivery, `wait` outcomes, `Popen`) becomes oracles, one constructor per
outcome the Python code distinguishes with its `except` clauses. -/

/-- Mutable state of `SGLangBackend` relevant to start/stop:
the tracked process handle (a pid) and the reentrancy flag. -/
structure BackendState where
  model_path : String
  process : Option Nat
  shutdown_requested : Bool
deriving DecidableEq

/-- Outcome of an `os.killpg` call (or the fallback single-process
signal): success, the caught `ProcessLookupError`/`PermissionError`, or
any other exception (not caught locally). -/
inductive SigResult where
  | ok
  | lookupOrPerm
  | raised
deriving DecidableEq

/-- Outcome of a `process.wait(timeout)` call: normal exit,
`subprocess.TimeoutExpired`, or any other exception. -/
inductive WaitResult where
  | exited (code : Int)
  | timedOut
  | raised
deriving DecidableEq

/-- Oracle for one `stop_server` invocation. -/
structure StopOracle where
  alreadyExited : Bool
  termSig : SigResult
  termFallbackRaises : Bool
  waitTerm : WaitResult
  killSig : SigResult
  killFallbackRaises : Bool
  waitKill : WaitResult
deriving DecidableEq

/-- Second half of `stop_server`'s try body, after SIGTERM was delivered:
wait for graceful exit, escalate to SIGKILL on timeout.  `.error ()`
means an exception reached the outer `except Exception` clause. -/
def stopAfterTerm (o : StopOracle) : Except Unit Unit :=
  match o.waitTerm with
  | .exited _ => .ok ()
  | .raised => .error ()
  | .timedOut =>
    match o.killSig with
    | .raised => .error ()
    | .lookupOrPerm => if o.killFallbackRaises then .error () else
        match o.waitKill with
        | .exited _ => .ok ()
        | .timedOut => .ok ()
        | .raised => .error ()
    | .ok =>
        match o.waitKill with
        | .exited _ => .ok ()
        | .timedOut => .ok ()
        | .raised => .error ()

/-- The try body of `stop_server`: poll, SIGTERM to the process group
(falling back to `terminate()` on lookup/permission errors), graceful
wait, SIGKILL escalation. -/
def stopTryBody (o : StopOracle) : Except Unit Unit :=
  if o.alreadyExited then .ok ()
  else
    match o.termSig with
    | .raised => .error ()
    | .lookupOrPerm =>
        if o.termFallbackRaises then .error () else stopAfterTerm o
    | .ok => stopAfterTerm o

/-- Model of `stop_server`.  The two early returns do not touch the state;
every path through the try body (normal return, timeout escalation, or an
exception caught by `except Exception`) runs the `finally` clause, which
clears the process handle and resets the reentrancy flag.  No exception
escapes to the caller. -/
def stop_server (st : BackendState) (o : StopOracle) : BackendState :=
  match st.process with
  | none => st
  | some _ =>
    if st.shutdown_requested then st
    else
      match stopTryBody o with
      | .ok _ => { st with process := none, shutdown_requested := false }
      | .error _ => { st with process := none, shutdown_requested := false }

/-- Oracle for one `start_server` invocation. -/
structure StartOracle where
  trackedAlive : Bool
  portInUse : Bool
  spawn : Except Unit Nat
  ready : Bool
  stopO : StopOracle

/-- Observable side effect of `start_server`: a `subprocess.Popen` spawn. -/
inductive SEvent where
  | spawned (pid : Nat)
deriving DecidableEq

/-- Spawn phase of `start_server`, entered once no live tracked process
exists: port probe, `Popen` (whose failure is caught with no process to
clean up), readiness wait, and `stop_server` cleanup on readiness
failure. -/
def startSpawnPhase (st : BackendState) (o : StartOracle) :
    BackendState × Bool × List SEvent :=
  if o.portInUse then (st, false, [])
  else
    match o.spawn with
    | .error _ => (st, false, [])
    | .ok pid =>
      let st2 := { st with process := some pid }
      if o.ready then (st2, true, [.spawned pid])
      else (stop_server st2 o.stopO, false, [.spawned pid])

/-- Model of `start_server`: empty model path fails fast; a tracked live
process short-circuits to success; a tracked dead process is discarded
before spawning. -/
def start_server (st : BackendState) (o : StartOracle) :
    BackendState × Bool × List SEvent :=
  if st.model_path = "" then (st, false, [])
  else
    match st.process with
    | some _ =>
      if o.trackedAlive then (st, true, [])
      else startSpawnPhase { st with process := none } o
    | none => startSpawnPhase st o

/-- Freshly constructed supervisor (`SGLangBackend.__init__`). -/
def initBackendState (modelPath : String) : BackendState :=
  { model_path := modelPath, process := none, shutdown_requested := false }

/-- States reachable through the supervisor's public operations. -/
inductive ReachableBackend : BackendState → Prop where
  | init (mp : String) : ReachableBackend (initBackendState mp)
  | start (st : BackendState) (o : StartOracle) :
      ReachableBackend st → ReachableBackend (start_server st o).1
  | stop (st : BackendState) (o : StopOracle) :
      ReachableBackend st → ReachableBackend (stop_server st o)

/-! ### server.py and cli.py

The orchestrator's startup is modelled as the ordered trace of the
load-bearing events: backend construction, environment snapshot
collection, backend start, listener bind, serving.  `cliLaunch` is
`cli.main`'s path through `InferenceServer(config)` followed by
`server.start()`, with an exception from snapshot collection caught at
top level (exit code 1). -/

/-- Startup events in the order the orchestrator performs them. -/
inductive LaunchEvent where
  | initBackend
  | collectEnv
  | startBackend
  | bindListener
  | serve
deriving DecidableEq

/-- Oracle for one launch: the snapshot collection result (`none` models
`EnvironmentCollectionError`), the `backend.start_server()` result, and
whether binding the HTTP listener succeeds. -/
structure LaunchOracle where
  collect : Option String
  backendStart : Bool
  bindOk : Bool

/-- Model of `InferenceServer.__init__`: `_init_backend` then
`_collect_environment_info`; a collection failure re-raises out of the
constructor. -/
def serverInit (o : LaunchOracle) : List LaunchEvent × Bool :=
  ([.initBackend, .collectEnv], o.collect.isSome)

/-- Model of `InferenceServer.start`: start the backend synchronously and
abort on failure; then bind the listener and start serving, stopping the
backend if the bind raises. -/
def serverStart (o : LaunchOracle) : List LaunchEvent × Bool :=
  if o.backendStart = false then ([.startBackend], false)
  else if o.bindOk = false then ([.startBackend], false)
  else ([.startBackend, .bindListener, .serve], true)

/-- Model of `cli.main`'s launch sequence: construct the server (snapshot
collection failure aborts, caught at top level), then `server.start()`
(failure aborts before serving). -/
def cliLaunch (o : LaunchOracle) : List LaunchEvent × Bool :=
  let i := serverInit o
  if i.2 = false then (i.1, false)
  else
    let s := serverStart o
    (i.1 ++ s.1, s.2)

/-- Convert the raw CUDA driver version integer into a human-readable
string (`_format_cuda_version`); `if patch:` is Python truthiness. -/
def format_cuda_version (raw : Nat) : String :=
  let major := raw / 1000
  let minor := (raw % 1000) / 10
  let patch := raw % 10
  if patch ≠ 0 then
    toString major ++ "." ++ toString minor ++ "." ++ toString patch
  else
    toString major ++ "." ++ toString minor

end DetInf

/-! ## Shared lemmas -/

namespace DetInf

/-- Concrete serializer used by witnesses: render then encode. -/
def dumpsBytes : Json → Bytes := fun j => strBytes (Json.render j)

/-- Concrete parser stand-in that recognises no input, usable wherever the
parse result is irrelevant or must be `none`. -/
def parseNone : Bytes → Option Json := fun _ => none

/-- Concrete parser stand-in for a body such as `[1,2]` whose JSON value is
not an object, making the item assignment raise `TypeError`. -/
def parseArr : Bytes → Option Json := fun _ => some (.arr [.num 1, .num 2])

/-- Header-retention predicate transcribed from the amended claim C5:
`Connection` and `Transfer-Encoding` are always excluded, `Content-Length`
is always excluded (a recomputed one is appended), and `Content-Encoding`
is excluded exactly when injection was attempted. -/
def amendedKeep (shouldInject : Bool) (h : String × String) : Bool :=
  !(lowerStr h.1 == "connection") && !(lowerStr h.1 == "transfer-encoding") &&
  !(lowerStr h.1 == "content-length") &&
  !(lowerStr h.1 == "content-encoding" && shouldInject)

/-- The `type` field of the `error` object of a local error body. -/
def errorType (j : Json) : Option Json :=
  (j.getKey "error").bind (fun e => e.getKey "type")

/-- Concrete parser agreeing with `json.loads` on exactly the bytes of
`{"environment":"old"}`. -/
def parseEnvOld : Bytes → Option Json := fun bs =>
  if bs = strBytes "\x7b\"environment\":\"old\"\x7d" then
    some (.obj [("environment", .str "old")])
  else none

/-- Concrete parser agreeing with `json.loads` on exactly the bytes of
`{"id":"abc"}`. -/
def parseIdAbc : Bytes → Option Json := fun bs =>
  if bs = strBytes "\x7b\"id\":\"abc\"\x7d" then
    some (.obj [("id", .str "abc")])
  else none

/-- Concrete GPU environment used by witnesses. -/
def envW : GPUEnvironment :=
  { driver_version := "550.90.07", cuda_version := "12.4", gpu_count := 1,
    gpus := [{ index := 0, name := "NVIDIA A100",
               memory_total_bytes := 1048576 }] }

/-- Rendering of a JSON object starts with an opening brace, so it is
never the empty string. -/
theorem render_obj_ne_empty (fs : List (String × Json)) :
    Json.render (.obj fs) ≠ "" := by
  simp only [Json.render]
  intro h
  have h2 := congrArg String.data h
  simp [String.data_append] at h2
  cases fs <;> simp [renderChars] at h2

/-- The snapshot string handed to the proxy handler is truthy: Python's
`if not self.environment_info` cannot fire on a rendered snapshot. -/
theorem to_json_ne_empty (e : GPUEnvironment) : e.to_json ≠ "" :=
  render_obj_ne_empty _

/-- Python dict assignment of an absent key appends it at the end. -/
theorem dictSet_append (fs : List (String × Json)) (k : String) (v : Json)
    (h : ∀ p ∈ fs, p.1 ≠ k) : dictSet fs k v = fs ++ [(k, v)] := by
  unfold dictSet
  rw [if_neg]
  simp only [List.any_eq_true, beq_iff_eq, not_exists, not_and]
  intro p hp
  exact h p hp

/-- Every `stop_server` call entered with a clear reentrancy flag runs
the `finally` clause (or finds no process), leaving the handle cleared
and the flag reset. -/
theorem stop_server_clears (st : BackendState) (o : StopOracle)
    (h : st.shutdown_requested = false) :
    (stop_server st o).process = none ∧
    (stop_server st o).shutdown_requested = false := by
  unfold stop_server
  cases hp : st.process with
  | none => exact ⟨hp, h⟩
  | some p =>
    rw [if_neg (by simp [h])]
    cases stopTryBody o <;> simp

/-- `stop_server` never changes the model path. -/
theorem stop_server_model_path (st : BackendState) (o : StopOracle) :
    (stop_server st o).model_path = st.model_path := by
  unfold stop_server
  cases st.process with
  | none => rfl
  | some p =>
    by_cases h : st.shutdown_requested = true
    · simp [h]
    · rw [if_neg (by simp [h])]
      cases stopTryBody o <;> rfl

/-- The spawn phase preserves the model path and a clear flag. -/
theorem startSpawnPhase_fields (st : BackendState) (o : StartOracle)
    (h : st.shutdown_requested = false) :
    (startSpawnPhase st o).1.model_path = st.model_path ∧
    (startSpawnPhase st o).1.shutdown_requested = false := by
  unfold startSpawnPhase
  by_cases hp : o.portInUse
  · simp [hp, h]
  · cases hs : o.spawn with
    | error e => simp [hp, hs, h]
    | ok pid =>
      by_cases hr : o.ready
      · simp [hp, hs, hr, h]
      · have h1 := stop_server_model_path { st with process := some pid } o.stopO
        have h2 := stop_server_clears { st with process := some pid } o.stopO (by simpa using h)
        simp only [hp, Bool.false_eq_true, if_false, hs, hr, if_false]
        exact ⟨h1, h2.2⟩

/-- `start_server` preserves the model path and a clear flag. -/
theorem start_server_fields (st : BackendState) (o : StartOracle)
    (h : st.shutdown_requested = false) :
    (start_server st o).1.model_path = st.model_path ∧
    (start_server st o).1.shutdown_requested = false := by
  unfold start_server
  by_cases hm : st.model_path = ""
  · simp [hm, h]
  · cases hp : st.process with
    | none => simpa [hm, hp] using startSpawnPhase_fields st o h
    | some p =>
      by_cases ha : o.trackedAlive
      · simp [hm, hp, ha, h]
      · simpa [hm, hp, ha] using
          startSpawnPhase_fields { st with process := none } o h

/-- With an empty model path, `start_server` fails fast and changes
nothing. -/
theorem start_server_empty_path (st : BackendState) (o : StartOracle)
    (hm : st.model_path = "") : start_server st o = (st, false, []) := by
  unfold start_server
  simp [hm]

/-- Sequential invariant of the supervisor: between public calls the
reentrancy flag is clear, and a supervisor constructed with an empty
model path never acquires a process handle. -/
theorem reachable_backend_inv (st : BackendState)
    (h : ReachableBackend st) :
    st.shutdown_requested = false ∧
    (st.model_path = "" → st.process = none) := by
  induction h with
  | init mp => exact ⟨rfl, fun _ => rfl⟩
  | start st o hr ih =>
    by_cases hm : st.model_path = ""
    · rw [start_server_empty_path st o hm]
      exact ih
    · refine ⟨(start_server_fields st o ih.1).2, ?_⟩
      intro hm2
      exact absurd ((start_server_fields st o ih.1).1 ▸ hm2) hm
  | stop st o hr ih =>
    have hc := stop_server_clears st o ih.1
    exact ⟨hc.2, fun _ => hc.1⟩

end DetInf

/-! ## Render/parse round-trip development -/
namespace DetInf

theorem digitVal_digitChar (d : Nat) (h : d < 10) :
    digitVal (Nat.digitChar d) = d := by
  interval_cases d <;> rfl

theorem isDigitCh_digitChar (d : Nat) (h : d < 10) :
    isDigitCh (Nat.digitChar d) = true := by
  interval_cases d <;> rfl

theorem natDigitsAux_small (fuel n : Nat) (hf : 0 < fuel) (hn : n < 10) :
    natDigitsAux fuel n = [Nat.digitChar n] := by
  cases fuel with
  | zero => omega
  | succ f => simp [natDigitsAux, hn]

theorem digitsToNat_append (ds : List Char) (c : Char) :
    digitsToNat (ds ++ [c]) = 10 * digitsToNat ds + digitVal c := by
  simp [digitsToNat, List.foldl_append]
  omega

theorem natDigitsAux_spec (fuel : Nat) :
    ∀ n, n < 10 ^ fuel → 0 < fuel →
      natDigitsAux fuel n ≠ [] ∧
      (∀ c ∈ natDigitsAux fuel n, isDigitCh c = true) ∧
      digitsToNat (natDigitsAux fuel n) = n := by
  induction fuel with
  | zero => omega
  | succ f ihf =>
    intro n hn _
    by_cases h : n < 10
    · refine ⟨by simp [natDigitsAux, h], ?_, ?_⟩
      · simp [natDigitsAux, h]
        exact isDigitCh_digitChar n h
      · simp [natDigitsAux, h, digitsToNat]
        exact digitVal_digitChar n h
    · have hf : 0 < f := by
        rcases Nat.eq_zero_or_pos f with h0 | h1
        · subst h0; simp at hn; omega
        · exact h1
      have hdiv : n / 10 < 10 ^ f := by
        rw [Nat.div_lt_iff_lt_mul (by norm_num)]
        rw [pow_succ] at hn
        omega
      obtain ⟨ih1, ih2, ih3⟩ := ihf (n / 10) hdiv hf
      have hunf : natDigitsAux (f + 1) n =
          natDigitsAux f (n / 10) ++ [Nat.digitChar (n % 10)] := by
        simp [natDigitsAux, h]
      refine ⟨by simp [hunf], ?_, ?_⟩
      · intro c hc
        rw [hunf] at hc
        rcases List.mem_append.mp hc with hcl | hcr
        · exact ih2 c hcl
        · simp at hcr
          subst hcr
          exact isDigitCh_digitChar _ (Nat.mod_lt _ (by norm_num))
      · rw [hunf, digitsToNat_append, ih3,
          digitVal_digitChar _ (Nat.mod_lt _ (by norm_num))]
        omega

theorem natDigits_ne_nil (n : Nat) : natDigits n ≠ [] :=
  (natDigitsAux_spec (n + 1) n (Nat.lt_pow_self (by norm_num) n |>.trans
    (Nat.pow_lt_pow_succ (by norm_num))) (Nat.succ_pos n)).1

theorem natDigits_digits (n : Nat) :
    ∀ c ∈ natDigits n, isDigitCh c = true :=
  (natDigitsAux_spec (n + 1) n (Nat.lt_pow_self (by norm_num) n |>.trans
    (Nat.pow_lt_pow_succ (by norm_num))) (Nat.succ_pos n)).2.1

theorem digitsToNat_natDigits (n : Nat) : digitsToNat (natDigits n) = n :=
  (natDigitsAux_spec (n + 1) n (Nat.lt_pow_self (by norm_num) n |>.trans
    (Nat.pow_lt_pow_succ (by norm_num))) (Nat.succ_pos n)).2.2

theorem natDigits_single (n : Nat) (h : n < 10) :
    natDigits n = [Nat.digitChar n] :=
  natDigitsAux_small _ _ (Nat.succ_pos n) h

theorem natDigits_two (n : Nat) (h1 : 10 ≤ n) (h2 : n < 100) :
    natDigits n = [Nat.digitChar (n / 10), Nat.digitChar (n % 10)] := by
  unfold natDigits
  have hunf : natDigitsAux (n + 1) n =
      natDigitsAux n (n / 10) ++ [Nat.digitChar (n % 10)] := by
    simp [natDigitsAux, show ¬ n < 10 by omega]
  rw [hunf, natDigitsAux_small n (n / 10) (by omega) (by omega)]
  rfl

theorem takeDigits_spec (ds : List Char) :
    ∀ rest, (∀ c ∈ ds, isDigitCh c = true) →
      (rest = [] ∨ isDigitCh (rest.headD ' ') = false) →
      takeDigits (ds ++ rest) = (ds, rest) := by
  induction ds with
  | nil =>
    intro rest _ hrest
    rcases hrest with h | h
    · subst h; rfl
    · cases rest with
      | nil => rfl
      | cons c t =>
        simp only [List.headD_cons] at h
        simp [takeDigits, h]
  | cons c cs ih =>
    intro rest hds hrest
    have hc : isDigitCh c = true := hds c (by simp)
    simp only [List.cons_append, takeDigits, hc, if_true]
    simp [ih rest (fun x hx => hds x (by simp [hx])) hrest]

end DetInf

namespace DetInf

theorem sepHead_not_digit (rest : List Char) (h : sepHead rest) :
    rest = [] ∨ isDigitCh (rest.headD ' ') = false := by
  cases rest with
  | nil => exact Or.inl rfl
  | cons c t =>
    right
    rcases h with h | h | h <;> subst h <;> simp only [List.headD_cons] <;>
      decide

theorem frac_spec (f : Nat) (h : f < 100) :
    fracDigits f ≠ [] ∧ (∀ c ∈ fracDigits f, isDigitCh c = true) ∧
    ((digitsToNat (fracDigits f) : ℚ) / (10 : ℚ) ^ (fracDigits f).length =
      (f : ℚ) / 100) := by
  unfold fracDigits
  by_cases h10 : f % 10 = 0
  · have hf10 : f / 10 < 10 := by omega
    rw [if_pos h10, natDigits_single _ hf10]
    refine ⟨by simp, ?_, ?_⟩
    · intro c hc
      simp at hc
      subst hc
      exact isDigitCh_digitChar _ hf10
    · have : digitsToNat [Nat.digitChar (f / 10)] = f / 10 := by
        simp [digitsToNat]
        exact digitVal_digitChar _ hf10
      rw [this]
      obtain ⟨k, hk⟩ : ∃ k, f = 10 * k := ⟨f / 10, by omega⟩
      subst hk
      have hdiv : 10 * k / 10 = k := by omega
      rw [hdiv]
      simp only [List.length_singleton, pow_one]
      push_cast
      rw [div_eq_div_iff (by norm_num) (by norm_num)]
      ring
  · by_cases hlt : f < 10
    · rw [if_neg h10, if_pos hlt, natDigits_single _ hlt]
      refine ⟨by simp, ?_, ?_⟩
      · intro c hc
        simp at hc
        rcases hc with hc | hc
        · subst hc; decide
        · subst hc; exact isDigitCh_digitChar _ hlt
      · have : digitsToNat ['0', Nat.digitChar f] = f := by
          simp [digitsToNat, digitVal]
          have := digitVal_digitChar f hlt
          simp [digitVal] at this
          omega
        rw [this]
        norm_num
    · rw [if_neg h10, if_neg hlt, natDigits_two f (by omega) h]
      refine ⟨by simp, ?_, ?_⟩
      · intro c hc
        simp at hc
        rcases hc with hc | hc <;> subst hc
        · exact isDigitCh_digitChar _ (by omega)
        · exact isDigitCh_digitChar _ (by omega)
      · have : digitsToNat [Nat.digitChar (f / 10), Nat.digitChar (f % 10)] =
            f := by
          simp [digitsToNat]
          have h1 := digitVal_digitChar (f / 10) (by omega)
          have h2 := digitVal_digitChar (f % 10) (by omega)
          omega
        rw [this]
        norm_num

end DetInf

namespace DetInf

theorem parseNumTok_int (ds rest : List Char) (hne : ds ≠ [])
    (hds : ∀ c ∈ ds, isDigitCh c = true) (hrest : sepHead rest) :
    parseNumTok (ds ++ rest) = some ((digitsToNat ds : ℚ), rest) := by
  obtain ⟨c, t, hct⟩ := List.exists_cons_of_ne_nil hne
  subst hct
  have hcd := hds c (by simp)
  have hcne : c ≠ '-' := by
    intro h
    subst h
    exact absurd hcd (by decide)
  unfold parseNumTok
  simp only [List.cons_append, List.head?_cons, Option.some.injEq,
    decide_eq_true_eq, if_neg hcne, hcne, decide_eq_false, List.tail_cons]
  simp only [if_false, ← List.cons_append]
  rw [takeDigits_spec (c :: t) rest hds (sepHead_not_digit rest hrest)]
  simp only [List.cons_ne_nil, if_false]
  cases rest with
  | nil => simp
  | cons r rs => rcases hrest with h | h | h <;> subst h <;> simp

end DetInf

namespace DetInf

theorem parseNumTok_neg_int (ds rest : List Char) (hne : ds ≠ [])
    (hds : ∀ c ∈ ds, isDigitCh c = true) (hrest : sepHead rest) :
    parseNumTok ('-' :: (ds ++ rest)) =
      some (-(digitsToNat ds : ℚ), rest) := by
  unfold parseNumTok
  simp only [List.head?_cons, Option.some.injEq, List.tail_cons]
  simp only [decide_eq_true_eq, if_pos rfl, if_true, eq_self_iff_true]
  rw [takeDigits_spec ds rest hds (sepHead_not_digit rest hrest)]
  rw [if_neg (by simpa using hne)]
  cases rest with
  | nil => simp
  | cons r rs => rcases hrest with h | h | h <;> subst h <;> simp

theorem parseNumTok_frac (ds fs rest : List Char) (hne : ds ≠ [])
    (hds : ∀ c ∈ ds, isDigitCh c = true) (hfne : fs ≠ [])
    (hfs : ∀ c ∈ fs, isDigitCh c = true) (hrest : sepHead rest) :
    parseNumTok (ds ++ '.' :: (fs ++ rest)) =
      some ((digitsToNat ds : ℚ) +
        (digitsToNat fs : ℚ) / (10 : ℚ) ^ fs.length, rest) := by
  obtain ⟨c, t, hct⟩ := List.exists_cons_of_ne_nil hne
  subst hct
  have hcd := hds c (by simp)
  have hcne : c ≠ '-' := by
    intro h
    subst h
    exact absurd hcd (by decide)
  have ht := takeDigits_spec (c :: t) ('.' :: (fs ++ rest)) hds
    (Or.inr (by simp only [List.headD_cons]; decide))
  simp only [List.cons_append] at ht
  have ht2 := takeDigits_spec fs rest hfs (sepHead_not_digit rest hrest)
  unfold parseNumTok
  simp only [List.cons_append, List.head?_cons, Option.some.injEq,
    decide_eq_true_eq, if_neg hcne, hcne, decide_eq_false, List.tail_cons]
  simp only [if_false]
  rw [ht]
  simp only [List.cons_ne_nil, if_false]
  rw [ht2]
  rw [if_neg (by simpa using hfne)]

theorem parseNumTok_neg_frac (ds fs rest : List Char) (hne : ds ≠ [])
    (hds : ∀ c ∈ ds, isDigitCh c = true) (hfne : fs ≠ [])
    (hfs : ∀ c ∈ fs, isDigitCh c = true) (hrest : sepHead rest) :
    parseNumTok ('-' :: (ds ++ '.' :: (fs ++ rest))) =
      some (-((digitsToNat ds : ℚ) +
        (digitsToNat fs : ℚ) / (10 : ℚ) ^ fs.length), rest) := by
  have ht := takeDigits_spec ds ('.' :: (fs ++ rest)) hds
    (Or.inr (by simp only [List.headD_cons]; decide))
  have ht2 := takeDigits_spec fs rest hfs (sepHead_not_digit rest hrest)
  unfold parseNumTok
  simp only [List.head?_cons, Option.some.injEq, List.tail_cons]
  simp only [decide_eq_true_eq, if_pos rfl, if_true, eq_self_iff_true]
  rw [ht]
  rw [if_neg (by simpa using hne)]
  simp only []
  rw [ht2]
  rw [if_neg (by simpa using hfne)]

end DetInf

namespace DetInf

theorem num_cast_eq_self (q : ℚ) (hd : q.den = 1) : ((q.num : ℤ) : ℚ) = q := by
  conv_rhs => rw [← Rat.num_div_den q]
  rw [hd]
  simp

theorem natAbs_cast_nonneg (z : ℤ) (h : ¬ z < 0) :
    ((z.natAbs : ℕ) : ℚ) = (z : ℚ) := by
  have hz : |z| = z := abs_of_nonneg (le_of_not_lt h)
  rw [Int.cast_natAbs, hz]

theorem natAbs_cast_neg (z : ℤ) (h : z < 0) :
    ((z.natAbs : ℕ) : ℚ) = -(z : ℚ) := by
  have hz : |z| = -z := abs_of_neg h
  rw [Int.cast_natAbs, hz]
  push_cast
  ring

theorem parseNumTok_numChars (q : ℚ) (hden : q.den ∣ 100) (rest : List Char)
    (hrest : sepHead rest) :
    parseNumTok (numChars q ++ rest) = some (q, rest) := by
  by_cases hd : q.den = 1
  · unfold numChars
    rw [if_pos hd]
    by_cases hneg : q.num < 0
    · rw [if_pos hneg]
      simp only [List.cons_append, List.nil_append]
      rw [parseNumTok_neg_int _ _ (natDigits_ne_nil _) (natDigits_digits _)
        hrest]
      simp only [Option.some.injEq, Prod.mk.injEq, and_true]
      rw [digitsToNat_natDigits, natAbs_cast_neg _ hneg, neg_neg]
      exact num_cast_eq_self q hd
    · rw [if_neg hneg]
      simp only [List.nil_append]
      rw [parseNumTok_int _ _ (natDigits_ne_nil _) (natDigits_digits _) hrest]
      simp only [Option.some.injEq, Prod.mk.injEq, and_true]
      rw [digitsToNat_natDigits, natAbs_cast_nonneg _ hneg]
      exact num_cast_eq_self q hd
  · unfold numChars
    rw [if_neg hd]
    have hdpos : 0 < q.den := q.pos
    have hk : 100 / q.den * q.den = 100 := Nat.div_mul_cancel hden
    set n := q.num.natAbs with hn
    set scaled := n * (100 / q.den) with hscaled
    have hf100 : scaled % 100 < 100 := Nat.mod_lt _ (by norm_num)
    obtain ⟨hfne, hfdig, hfval⟩ := frac_spec (scaled % 100) hf100
    have hsplit : 100 * (scaled / 100) + scaled % 100 = scaled :=
      Nat.div_add_mod scaled 100
    have hsq : scaled * q.den = n * 100 := by
      rw [hscaled, Nat.mul_assoc, hk]
    have hqd0 : ((q.den : ℕ) : ℚ) ≠ 0 := by
      exact_mod_cast hdpos.ne'
    have hmag : ((digitsToNat (natDigits (scaled / 100)) : ℕ) : ℚ) +
        (digitsToNat (fracDigits (scaled % 100)) : ℚ) /
          (10 : ℚ) ^ (fracDigits (scaled % 100)).length =
        (n : ℚ) / (q.den : ℚ) := by
      rw [digitsToNat_natDigits, hfval]
      have h1 : ((scaled / 100 : ℕ) : ℚ) + ((scaled % 100 : ℕ) : ℚ) / 100 =
          ((scaled : ℕ) : ℚ) / 100 := by
        field_simp
        exact_mod_cast by omega
      rw [h1, div_eq_div_iff (by norm_num : (100 : ℚ) ≠ 0) hqd0]
      exact_mod_cast hsq
    by_cases hneg : q.num < 0
    · rw [if_pos hneg]
      simp only [List.cons_append, List.nil_append, List.append_assoc]
      rw [parseNumTok_neg_frac _ _ _ (natDigits_ne_nil _) (natDigits_digits _)
        hfne hfdig hrest]
      simp only [Option.some.injEq, Prod.mk.injEq, and_true]
      rw [hmag, hn, natAbs_cast_neg _ hneg]
      rw [neg_div, neg_neg]
      exact Rat.num_div_den q
    · rw [if_neg hneg]
      simp only [List.nil_append, List.append_assoc, List.cons_append]
      rw [parseNumTok_frac _ _ _ (natDigits_ne_nil _) (natDigits_digits _)
        hfne hfdig hrest]
      simp only [Option.some.injEq, Prod.mk.injEq, and_true]
      rw [hmag, hn, natAbs_cast_nonneg _ hneg]
      exact Rat.num_div_den q

end DetInf

namespace DetInf

theorem parseHex_digitChar (d : Nat) (h : d < 16) :
    parseHex (Nat.digitChar d) = some d := by
  interval_cases d <;> rfl

set_option maxHeartbeats 2000000 in
theorem parseStrBody_roundtrip (l rest : List Char) :
    parseStrBody (l.flatMap escChars ++ '"' :: rest) = some (l, rest) := by
  induction l with
  | nil =>
    simp only [List.flatMap_nil, List.nil_append]
    rw [parseStrBody.eq_def]
    simp
  | cons c cs ih =>
    simp only [List.flatMap_cons, List.append_assoc]
    by_cases h1 : c = '"'
    · subst h1
      rw [show escChars '"' = ['\\', '"'] from rfl]
      simp only [List.cons_append, List.nil_append]
      rw [parseStrBody.eq_def]
      simp [ih]
    · by_cases h2 : c = '\\'
      · subst h2
        rw [show escChars '\\' = ['\\', '\\'] from rfl]
        simp only [List.cons_append, List.nil_append]
        rw [parseStrBody.eq_def]
        simp [ih]
      · by_cases h3 : c = '\n'
        · subst h3
          rw [show escChars '\n' = ['\\', 'n'] from rfl]
          simp only [List.cons_append, List.nil_append]
          rw [parseStrBody.eq_def]
          simp [ih]
        · by_cases h4 : c = '\t'
          · subst h4
            rw [show escChars '\t' = ['\\', 't'] from rfl]
            simp only [List.cons_append, List.nil_append]
            rw [parseStrBody.eq_def]
            simp [ih]
          · by_cases h5 : c = '\r'
            · subst h5
              rw [show escChars '\r' = ['\\', 'r'] from rfl]
              simp only [List.cons_append, List.nil_append]
              rw [parseStrBody.eq_def]
              simp [ih]
            · by_cases h6 : c.toNat = 8
              · have he : escChars c = ['\\', 'b'] := by
                  unfold escChars
                  rw [if_neg h1, if_neg h2, if_neg h3, if_neg h4, if_neg h5,
                    if_pos h6]
                have hc : Char.ofNat 8 = c := by
                  rw [← h6, Char.ofNat_toNat]
                rw [he]
                simp only [List.cons_append, List.nil_append]
                rw [parseStrBody.eq_def]
                simp [ih]
                exact hc
              · by_cases h7 : c.toNat = 12
                · have he : escChars c = ['\\', 'f'] := by
                    unfold escChars
                    rw [if_neg h1, if_neg h2, if_neg h3, if_neg h4, if_neg h5,
                      if_neg h6, if_pos h7]
                  have hc : Char.ofNat 12 = c := by
                    rw [← h7, Char.ofNat_toNat]
                  rw [he]
                  simp only [List.cons_append, List.nil_append]
                  rw [parseStrBody.eq_def]
                  simp [ih]
                  exact hc
                · by_cases h8 : c.toNat < 32
                  · have he : escChars c = ['\\', 'u', '0', '0',
                        Nat.digitChar (c.toNat / 16),
                        Nat.digitChar (c.toNat % 16)] := by
                      unfold escChars
                      rw [if_neg h1, if_neg h2, if_neg h3, if_neg h4, if_neg h5,
                        if_neg h6, if_neg h7, if_pos h8]
                    have hhi : c.toNat / 16 < 16 := by omega
                    have hlo : c.toNat % 16 < 16 := by omega
                    have harith : ((0 * 16 + 0) * 16 + c.toNat / 16) * 16 +
                        c.toNat % 16 = c.toNat := by omega
                    rw [he]
                    simp only [List.cons_append, List.nil_append]
                    rw [parseStrBody.eq_def]
                    simp [parseHex_digitChar _ hhi, parseHex_digitChar _ hlo,
                      ih]
                    rw [show parseHex '0' = some 0 from rfl]
                    simp only []
                    rw [harith, Char.ofNat_toNat]
                  · have he : escChars c = [c] := by
                      unfold escChars
                      rw [if_neg h1, if_neg h2, if_neg h3, if_neg h4, if_neg h5,
                        if_neg h6, if_neg h7, if_neg h8]
                    rw [he]
                    simp only [List.cons_append, List.nil_append]
                    rw [parseStrBody.eq_def]
                    simp only []
                    rw [if_neg h1, if_neg h2, ih]
                    rfl

end DetInf

namespace DetInf

theorem parseVal_succ_bracket (fuel : Nat) (X : List Char) :
    parseVal (fuel + 1) ('[' :: X) =
      match X with
      | ']' :: r => some (.arr [], r)
      | _ => (parseElems fuel X).map (fun p => (.arr p.1, p.2)) := rfl

theorem parseVal_succ_brace (fuel : Nat) (X : List Char) :
    parseVal (fuel + 1) ('\x7b' :: X) =
      match X with
      | '\x7d' :: r => some (.obj [], r)
      | _ => (parseFields fuel X).map (fun p => (.obj p.1, p.2)) := rfl

theorem parseElems_succ (fuel : Nat) (cs : List Char) :
    parseElems (fuel + 1) cs =
      match parseVal fuel cs with
      | none => none
      | some (j, rest) =>
        match rest with
        | ',' :: r => (parseElems fuel r).map (fun p => (j :: p.1, p.2))
        | ']' :: r => some ([j], r)
        | _ => none := rfl

theorem parseFields_succ (fuel : Nat) (cs : List Char) :
    parseFields (fuel + 1) cs =
      match cs with
      | '"' :: cs1 =>
        match parseStrBody cs1 with
        | none => none
        | some (k, rest) =>
          match rest with
          | ':' :: r2 =>
            match parseVal fuel r2 with
            | none => none
            | some (v, r3) =>
              match r3 with
              | ',' :: r4 =>
                (parseFields fuel r4).map
                  (fun p => ((String.mk k, v) :: p.1, p.2))
              | '\x7d' :: r4 => some ([(String.mk k, v)], r4)
              | _ => none
          | _ => none
      | _ => none := rfl

theorem wVal_pos (j : Json) : 1 ≤ wVal j := by
  cases j with
  | arr xs => cases xs <;> simp [wVal]
  | obj fs => cases fs <;> simp [wVal]
  | null => simp [wVal]
  | bool b => simp [wVal]
  | num q => simp [wVal]
  | str s => simp [wVal]

theorem isDigitCh_ne (c d : Char) (h : isDigitCh c = true)
    (hd : d.toNat < 48 ∨ 57 < d.toNat) : c ≠ d := by
  intro he
  subst he
  simp [isDigitCh] at h
  omega

theorem numChars_head (q : ℚ) :
    ∃ c t, numChars q = c :: t ∧ (c = '-' ∨ isDigitCh c = true) := by
  unfold numChars
  by_cases hd : q.den = 1
  · rw [if_pos hd]
    by_cases hn : q.num < 0
    · rw [if_pos hn]
      exact ⟨'-', natDigits q.num.natAbs, rfl, Or.inl rfl⟩
    · rw [if_neg hn]
      obtain ⟨c, t, hct⟩ :=
        List.exists_cons_of_ne_nil (natDigits_ne_nil q.num.natAbs)
      refine ⟨c, t, by rw [List.nil_append, hct], Or.inr ?_⟩
      exact natDigits_digits _ c (by rw [hct]; simp)
  · rw [if_neg hd]
    by_cases hn : q.num < 0
    · rw [if_pos hn]
      obtain ⟨c, t, hct⟩ := List.exists_cons_of_ne_nil
        (natDigits_ne_nil (q.num.natAbs * (100 / q.den) / 100))
      exact ⟨'-', _, rfl, Or.inl rfl⟩
    · rw [if_neg hn]
      obtain ⟨c, t, hct⟩ := List.exists_cons_of_ne_nil
        (natDigits_ne_nil (q.num.natAbs * (100 / q.den) / 100))
      refine ⟨c, t ++ '.' :: fracDigits (q.num.natAbs * (100 / q.den) % 100),
        ?_, Or.inr (natDigits_digits _ c (by rw [hct]; simp))⟩
      rw [List.nil_append, hct]
      rfl

theorem renderChars_head (j : Json) :
    ∃ c t, renderChars j = c :: t ∧ c ≠ ']' ∧ c ≠ '\x7d' := by
  cases j with
  | null => exact ⟨'n', _, rfl, by decide, by decide⟩
  | bool b =>
    cases b with
    | true => exact ⟨'t', _, rfl, by decide, by decide⟩
    | false => exact ⟨'f', _, rfl, by decide, by decide⟩
  | num q =>
    obtain ⟨c, t, hct, hc⟩ := numChars_head q
    refine ⟨c, t, by rw [show renderChars (.num q) = numChars q from rfl, hct],
      ?_, ?_⟩
    · rcases hc with hc | hc
      · subst hc; decide
      · exact isDigitCh_ne c ']' hc (by decide)
    · rcases hc with hc | hc
      · subst hc; decide
      · exact isDigitCh_ne c '\x7d' hc (by decide)
  | str s => exact ⟨'"', _, rfl, by decide, by decide⟩
  | arr xs =>
    cases xs with
    | nil => exact ⟨'[', _, rfl, by decide, by decide⟩
    | cons x xs => exact ⟨'[', _, rfl, by decide, by decide⟩
  | obj fs =>
    cases fs with
    | nil => exact ⟨'\x7b', _, rfl, by decide, by decide⟩
    | cons f fs => exact ⟨'\x7b', _, rfl, by decide, by decide⟩

end DetInf

namespace DetInf

theorem parseVal_succ_other (fuel : Nat) (c : Char) (cs : List Char)
    (h1 : c ≠ '"') (h2 : c ≠ '[') (h3 : c ≠ '\x7b') (h4 : c ≠ 'n')
    (h5 : c ≠ 't') (h6 : c ≠ 'f') :
    parseVal (fuel + 1) (c :: cs) =
      (parseNumTok (c :: cs)).map (fun p => (.num p.1, p.2)) := by
  rw [parseVal.eq_def]
  simp only []
  rw [if_neg h1, if_neg h2, if_neg h3, if_neg h4, if_neg h5, if_neg h6]

set_option maxHeartbeats 2000000 in
theorem parse_render_mutual (fuel : Nat) :
    (∀ j rest, Good j → wVal j < fuel → sepHead rest →
      parseVal fuel (renderChars j ++ rest) = some (j, rest)) ∧
    (∀ xs rest, (∀ x ∈ xs, Good x) → xs ≠ [] → wElems xs < fuel →
      sepHead rest →
      parseElems fuel (elemsChars xs ++ rest) = some (xs, rest)) ∧
    (∀ fs rest, (∀ f ∈ fs, Good f.2) → fs ≠ [] → wFields fs < fuel →
      sepHead rest →
      parseFields fuel (fieldsChars fs ++ rest) = some (fs, rest)) := by
  induction fuel with
  | zero =>
    refine ⟨fun j rest _ hw _ => absurd hw (by have := wVal_pos j; omega),
      fun xs rest _ hne hw _ => ?_, fun fs rest _ hne hw _ => ?_⟩
    · cases xs with
      | nil => exact absurd rfl hne
      | cons x xs' =>
        rw [show wElems (x :: xs') = 1 + wVal x + wElems xs' from rfl] at hw
        omega
    · cases fs with
      | nil => exact absurd rfl hne
      | cons f fs' =>
        rw [show wFields (f :: fs') = 1 + wVal f.2 + wFields fs' from rfl] at hw
        omega
  | succ fuel ih =>
    obtain ⟨ihV, ihE, ihF⟩ := ih
    refine ⟨?_, ?_, ?_⟩
    · intro j rest hg hw hr
      cases j with
      | null => rfl
      | bool b => cases b <;> rfl
      | str s =>
        have hshape : renderChars (.str s) ++ rest =
            '"' :: (s.toList.flatMap escChars ++ '"' :: rest) := by
          rw [show renderChars (.str s) = strChars s from rfl]
          simp [strChars]
        rw [hshape]
        rw [show parseVal (fuel + 1)
            ('"' :: (s.toList.flatMap escChars ++ '"' :: rest)) =
          (parseStrBody (s.toList.flatMap escChars ++ '"' :: rest)).map
            (fun p => (.str (String.mk p.1), p.2)) from rfl]
        rw [parseStrBody_roundtrip]
        rfl
      | num q =>
        cases hg with
        | num _ hden =>
          obtain ⟨c, t, hct, hc⟩ := numChars_head q
          have hne : ∀ d : Char, d.toNat ≠ 45 → d.toNat < 48 ∨ 57 < d.toNat →
              c ≠ d := by
            intro d h45 hd
            rcases hc with hc | hc
            · subst hc
              intro he
              have h2 := congrArg Char.toNat he
              rw [show ('-' : Char).toNat = 45 from rfl] at h2
              omega
            · exact isDigitCh_ne c d hc hd
          have hshape : renderChars (.num q) ++ rest = c :: (t ++ rest) := by
            rw [show renderChars (.num q) = numChars q from rfl, hct]
            rfl
          rw [hshape]
          rw [parseVal_succ_other fuel c (t ++ rest)
            (hne '"' (by decide) (by decide)) (hne '[' (by decide) (by decide))
            (hne '\x7b' (by decide) (by decide))
            (hne 'n' (by decide) (by decide)) (hne 't' (by decide) (by decide))
            (hne 'f' (by decide) (by decide))]
          rw [show c :: (t ++ rest) = numChars q ++ rest from by rw [hct]; rfl]
          rw [parseNumTok_numChars q hden rest hr]
          rfl
      | arr xs =>
        cases xs with
        | nil => rfl
        | cons x xs' =>
          cases hg with
          | arr _ hx =>
            have hw2 : wElems (x :: xs') < fuel := by
              rw [show wVal (.arr (x :: xs')) = 1 + wElems (x :: xs') from
                rfl] at hw
              omega
            obtain ⟨A, hA⟩ : ∃ A, elemsChars (x :: xs') = renderChars x ++ A := by
              cases xs' with
              | nil => exact ⟨[']'], rfl⟩
              | cons y ys => exact ⟨',' :: elemsChars (y :: ys), rfl⟩
            obtain ⟨c, t, hct, hcb, hcB⟩ := renderChars_head x
            rw [show renderChars (.arr (x :: xs')) ++ rest =
              '[' :: (elemsChars (x :: xs') ++ rest) from rfl]
            rw [parseVal_succ_bracket]
            split
            · rename_i r heq
              rw [hA, hct] at heq
              simp at heq
              exact absurd heq.1 hcb
            · rw [ihE (x :: xs') rest hx (by simp) hw2 hr]
              rfl
      | obj fs =>
        cases fs with
        | nil => rfl
        | cons f fs' =>
          cases hg with
          | obj _ hf =>
            have hw2 : wFields (f :: fs') < fuel := by
              rw [show wVal (.obj (f :: fs')) = 1 + wFields (f :: fs') from
                rfl] at hw
              omega
            obtain ⟨B, hB⟩ : ∃ B, fieldsChars (f :: fs') = '"' :: B := by
              obtain ⟨k, v⟩ := f
              cases fs' with
              | nil => exact ⟨_, rfl⟩
              | cons g gs => exact ⟨_, rfl⟩
            rw [show renderChars (.obj (f :: fs')) ++ rest =
              '\x7b' :: (fieldsChars (f :: fs') ++ rest) from rfl]
            rw [parseVal_succ_brace]
            split
            · rename_i r heq
              rw [hB] at heq
              simp at heq
            · rw [ihF (f :: fs') rest hf (by simp) hw2 hr]
              rfl
    · intro xs rest hg hne hw hr
      cases xs with
      | nil => exact absurd rfl hne
      | cons x xs' =>
        have hgx : Good x := hg x (by simp)
        cases xs' with
        | nil =>
          have hwx : wVal x < fuel := by
            rw [show wElems [x] = 1 + wVal x + wElems [] from rfl,
              show wElems ([] : List Json) = 0 from rfl] at hw
            omega
          have hshape : elemsChars [x] ++ rest =
              renderChars x ++ (']' :: rest) := by
            rw [show elemsChars [x] = renderChars x ++ [']'] from rfl]
            simp
          rw [hshape, parseElems_succ]
          rw [ihV x (']' :: rest) hgx hwx (by simp [sepHead])]
          rfl
        | cons y ys =>
          have hvp := wVal_pos x
          have hwx : wVal x < fuel := by
            rw [show wElems (x :: y :: ys) =
              1 + wVal x + wElems (y :: ys) from rfl] at hw
            omega
          have hwr : wElems (y :: ys) < fuel := by
            rw [show wElems (x :: y :: ys) =
              1 + wVal x + wElems (y :: ys) from rfl] at hw
            omega
          have hshape : elemsChars (x :: y :: ys) ++ rest =
              renderChars x ++ (',' :: (elemsChars (y :: ys) ++ rest)) := by
            rw [show elemsChars (x :: y :: ys) =
              renderChars x ++ ',' :: elemsChars (y :: ys) from rfl]
            simp
          rw [hshape, parseElems_succ]
          rw [ihV x _ hgx hwx (by simp [sepHead])]
          simp only []
          rw [ihE (y :: ys) rest (fun z hz => hg z (by simp [hz]))
            (by simp) hwr hr]
          rfl
    · intro fs rest hg hne hw hr
      cases fs with
      | nil => exact absurd rfl hne
      | cons f fs' =>
        obtain ⟨k, v⟩ := f
        have hgv : Good v := hg (k, v) (by simp)
        cases fs' with
        | nil =>
          have hwv : wVal v < fuel := by
            rw [show wFields [(k, v)] = 1 + wVal v + wFields [] from rfl,
              show wFields ([] : List (String × Json)) = 0 from rfl] at hw
            omega
          have hshape : fieldsChars [(k, v)] ++ rest =
              '"' :: (k.toList.flatMap escChars ++
                '"' :: (':' :: (renderChars v ++ ('\x7d' :: rest)))) := by
            rw [show fieldsChars [(k, v)] =
              strChars k ++ ':' :: renderChars v ++ ['\x7d'] from rfl]
            simp [strChars]
          rw [hshape, parseFields_succ]
          simp only []
          rw [parseStrBody_roundtrip]
          simp only []
          rw [ihV v _ hgv hwv (by simp [sepHead])]
          rfl
        | cons g gs =>
          have hvp := wVal_pos v
          have hwv : wVal v < fuel := by
            rw [show wFields ((k, v) :: g :: gs) =
              1 + wVal v + wFields (g :: gs) from rfl] at hw
            omega
          have hwr : wFields (g :: gs) < fuel := by
            rw [show wFields ((k, v) :: g :: gs) =
              1 + wVal v + wFields (g :: gs) from rfl] at hw
            omega
          have hshape : fieldsChars ((k, v) :: g :: gs) ++ rest =
              '"' :: (k.toList.flatMap escChars ++
                '"' :: (':' :: (renderChars v ++
                  (',' :: (fieldsChars (g :: gs) ++ rest))))) := by
            rw [show fieldsChars ((k, v) :: g :: gs) =
              strChars k ++ ':' :: renderChars v ++
                ',' :: fieldsChars (g :: gs) from rfl]
            simp [strChars]
          rw [hshape, parseFields_succ]
          simp only []
          rw [parseStrBody_roundtrip]
          simp only []
          rw [ihV v _ hgv hwv (by simp [sepHead])]
          simp only []
          rw [ihF (g :: gs) rest (fun z hz => hg z (by simp [hz]))
            (by simp) hwr hr]
          rfl

end DetInf

namespace DetInf

mutual
theorem wVal_le_length : ∀ j : Json, wVal j ≤ (renderChars j).length
  | .null => by simp [wVal, renderChars]
  | .bool b => by cases b <;> simp [wVal, renderChars]
  | .num q => by
      obtain ⟨c, t, hct, _⟩ := numChars_head q
      simp [wVal, renderChars, hct]
  | .str s => by simp [wVal, renderChars, strChars]
  | .arr [] => by simp [wVal, renderChars]
  | .arr (x :: xs) => by
      have h := wElems_le_length (x :: xs)
      simp only [wVal, renderChars, List.length_cons]
      omega
  | .obj [] => by simp [wVal, renderChars]
  | .obj (f :: fs) => by
      have h := wFields_le_length (f :: fs)
      simp only [wVal, renderChars, List.length_cons]
      omega

theorem wElems_le_length : ∀ xs : List Json, wElems xs ≤ (elemsChars xs).length
  | [] => by simp [wElems, elemsChars]
  | [x] => by
      have h := wVal_le_length x
      simp only [wElems, elemsChars, List.length_append, List.length_cons,
        List.length_nil]
      omega
  | x :: y :: ys => by
      have h1 := wVal_le_length x
      have h2 := wElems_le_length (y :: ys)
      rw [show wElems (x :: y :: ys) = 1 + wVal x + wElems (y :: ys) from rfl,
        show elemsChars (x :: y :: ys) =
          renderChars x ++ ',' :: elemsChars (y :: ys) from rfl]
      simp only [List.length_append, List.length_cons]
      omega

theorem wFields_le_length :
    ∀ fs : List (String × Json), wFields fs ≤ (fieldsChars fs).length
  | [] => by simp [wFields, fieldsChars]
  | [(k, v)] => by
      have h := wVal_le_length v
      simp only [wFields, fieldsChars, List.length_append, List.length_cons,
        List.length_nil, strChars]
      omega
  | (k, v) :: g :: gs => by
      have h1 := wVal_le_length v
      have h2 := wFields_le_length (g :: gs)
      rw [show wFields ((k, v) :: g :: gs) =
          1 + wVal v + wFields (g :: gs) from rfl,
        show fieldsChars ((k, v) :: g :: gs) =
          strChars k ++ ':' :: renderChars v ++ ',' :: fieldsChars (g :: gs)
          from rfl]
      simp only [List.length_append, List.length_cons, strChars]
      omega
end

/-- The parser inverts the renderer on every well-formed value. -/
theorem parse_render (j : Json) (h : Good j) :
    parseJsonStr (Json.render j) = some j := by
  unfold parseJsonStr
  rw [show (Json.render j).data = renderChars j from rfl]
  have hw : wVal j < (renderChars j).length + 1 :=
    Nat.lt_succ_of_le (wVal_le_length j)
  have hmain := (parse_render_mutual ((renderChars j).length + 1)).1 j [] h hw
    trivial
  rw [List.append_nil] at hmain
  rw [hmain]

/-- Denominators produced by `round(x, 2)` divide 100. -/
theorem roundTo2_den_dvd (q : ℚ) : (roundTo2 q).den ∣ 100 := by
  unfold roundTo2
  have h := Rat.den_dvd (round (q * 100)) 100
  rw [Rat.divInt_eq_div] at h
  exact_mod_cast h

/-- The snapshot dict is well formed for the round trip. -/
theorem good_to_dict (e : GPUEnvironment) : Good e.to_dict := by
  unfold GPUEnvironment.to_dict
  refine Good.obj _ ?_
  intro f hf
  simp only [List.mem_cons, List.not_mem_nil, or_false] at hf
  rcases hf with hf | hf | hf | hf
  · rw [hf]; exact Good.str _
  · rw [hf]; exact Good.str _
  · rw [hf]
    exact Good.num _ (by rw [Rat.den_natCast]; exact one_dvd _)
  · rw [hf]
    refine Good.arr _ ?_
    intro x hx
    simp only [List.mem_map] at hx
    obtain ⟨g, _, hgx⟩ := hx
    rw [← hgx]
    unfold GPUInfo.to_dict
    refine Good.obj _ ?_
    intro p hp
    simp only [List.mem_cons, List.not_mem_nil, or_false] at hp
    rcases hp with hp | hp | hp | hp
    · rw [hp]
      exact Good.num _ (by rw [Rat.den_natCast]; exact one_dvd _)
    · rw [hp]; exact Good.str _
    · rw [hp]
      exact Good.num _ (by rw [Rat.den_natCast]; exact one_dvd _)
    · rw [hp]
      exact Good.num _ (roundTo2_den_dvd _)

/-- The environment snapshot string parses back to the snapshot dict: the
injected `environment` string is the JSON serialisation of an object with
the four attestation keys. -/
theorem parse_to_json (e : GPUEnvironment) :
    parseJsonStr e.to_json = some e.to_dict :=
  parse_render e.to_dict (good_to_dict e)

end DetInf

/-! ## Claim theorems -/

namespace DetInf

/-- Claim C10: for every non-negative raw CUDA driver version `v`, the
formatted string is `major.minor.patch` (with `major = v / 1000`,
`minor = (v % 1000) / 10`, `patch = v % 10`) when the patch digit is
non-zero, and `major.minor` with no patch component when it is zero. -/
theorem cuda_version_format_ok (v : Nat) :
    format_cuda_version v =
      if v % 10 = 0 then
        toString (v / 1000) ++ "." ++ toString (v % 1000 / 10)
      else
        toString (v / 1000) ++ "." ++ toString (v % 1000 / 10) ++ "." ++
          toString (v % 10) := by
  unfold format_cuda_version
  by_cases h : v % 10 = 0 <;> simp [h]

/-- Claim C3: a POST to a completion path while the supervisor's
`is_running()` is false is answered 503 immediately, and no outbound
network attempt is made (the upstream oracle is never consulted). -/
theorem post_503_when_backend_down (b : BackendView) (envInfo : Option String)
    (parse : Bytes → Option Json) (dumps : Json → Bytes)
    (path : String) (upstream : UpstreamResult)
    (hpath : isCompletionPath path = true)
    (hdown : b.running = false) :
    (do_POST (some b) envInfo parse dumps path upstream).1.status = 503 ∧
    (do_POST (some b) envInfo parse dumps path upstream).2 = false := by
  simp [do_POST, hpath, proxy_to_backend, hdown, send_error_response]

/-- Witness for C3 at a concrete request. -/
theorem post_503_when_backend_down_witness :
    (do_POST (some { running := false, baseUrl := "http://127.0.0.1:30000" })
        (some "env") parseNone dumpsBytes "/v1/completions"
        (.success 200 [] [])).1.status = 503 ∧
    (do_POST (some { running := false, baseUrl := "http://127.0.0.1:30000" })
        (some "env") parseNone dumpsBytes "/v1/completions"
        (.success 200 [] [])).2 = false :=
  post_503_when_backend_down _ _ _ _ _ _ (by decide) rfl

/-- Claim C6: a non-2xx upstream reply (surfacing as `HTTPError`) is
relayed with its original status code and byte-for-byte identical body —
no injection, no mutation, no JSON wrapping. -/
theorem upstream_http_error_passthrough (b : BackendView)
    (envInfo : Option String) (parse : Bytes → Option Json)
    (dumps : Json → Bytes) (path : String) (code : Nat)
    (headers : List (String × String)) (body : Bytes)
    (hrun : b.running = true) :
    (proxy_to_backend (some b) envInfo parse dumps path
        (.httpError code headers body)).1.status = code ∧
    (proxy_to_backend (some b) envInfo parse dumps path
        (.httpError code headers body)).1.body = body := by
  simp [proxy_to_backend, hrun]

/-- Witness for C6: the spec's scenario, HTTP 429 with body
`{"error":"rate limited"}`. -/
theorem upstream_http_error_passthrough_witness :
    (proxy_to_backend (some { running := true, baseUrl := "u" }) (some "env")
        parseNone dumpsBytes "/v1/completions"
        (.httpError 429 [("Content-Type", "application/json")]
          (strBytes "\x7b\"error\":\"rate limited\"\x7d"))).1.status = 429 ∧
    (proxy_to_backend (some { running := true, baseUrl := "u" }) (some "env")
        parseNone dumpsBytes "/v1/completions"
        (.httpError 429 [("Content-Type", "application/json")]
          (strBytes "\x7b\"error\":\"rate limited\"\x7d"))).1.body =
      strBytes "\x7b\"error\":\"rate limited\"\x7d" :=
  upstream_http_error_passthrough _ _ _ _ _ _ _ _ rfl

/-- Claim C2: on a successful upstream response, if the upstream
Content-Type is not JSON or the body fails to parse, injection is skipped
and the relayed body is byte-for-byte the upstream body, with the status
preserved (fail open). -/
theorem fail_open_relays_bytes (b : BackendView) (envInfo : Option String)
    (parse : Bytes → Option Json) (dumps : Json → Bytes) (path : String)
    (status : Nat) (headers : List (String × String)) (body : Bytes)
    (hrun : b.running = true)
    (hskip : jsonContentType (headerGet headers "Content-Type") = false ∨
      parse body = none) :
    (proxy_to_backend (some b) envInfo parse dumps path
        (.success status headers body)).1.body = body ∧
    (proxy_to_backend (some b) envInfo parse dumps path
        (.success status headers body)).1.status = status := by
  unfold proxy_to_backend
  by_cases hsi : should_inject_environment envInfo path
  · rcases hskip with hct | hp
    · simp [hrun, hsi, inject_environment_payload, hct]
    · by_cases hct : jsonContentType (headerGet headers "Content-Type") = false
      · simp [hrun, hsi, inject_environment_payload, hct]
      · simp [hrun, hsi, inject_environment_payload, hct, hp]
  · simp [hrun, hsi]

/-- Witness for C2 at a concrete non-JSON upstream response. -/
theorem fail_open_relays_bytes_witness :
    (proxy_to_backend (some { running := true, baseUrl := "u" }) (some "env")
        parseNone dumpsBytes "/v1/completions"
        (.success 200 [("Content-Type", "text/plain")] [104, 105])).1.body =
      [104, 105] ∧
    (proxy_to_backend (some { running := true, baseUrl := "u" }) (some "env")
        parseNone dumpsBytes "/v1/completions"
        (.success 200 [("Content-Type", "text/plain")] [104, 105])).1.status =
      200 :=
  fail_open_relays_bytes _ _ _ _ _ _ _ _ rfl (Or.inl (by decide))

end DetInf

namespace DetInf

/-- Claim C7: every `stop_server` invocation (from a state whose
reentrancy flag is clear, which `reachable_backend_inv` shows is every
state between public calls) ends with the tracked process handle cleared,
on every exit path — the no-process early return, the already-terminated
early return, graceful exit, timeout escalation, and every internal
exception caught by the `except`/`finally` structure.  The model's total
return type reflects that `stop()` never raises to its caller. -/
theorem stop_always_clears_handle (st : BackendState) (o : StopOracle)
    (h : st.shutdown_requested = false) :
    (stop_server st o).process = none :=
  (stop_server_clears st o h).1

/-- Witness for C7 on the timeout-escalation path: SIGTERM delivered, the
graceful wait times out, SIGKILL delivered, the second wait times out
too, and the handle is still cleared. -/
theorem stop_always_clears_handle_witness :
    (stop_server
      { model_path := "m", process := some 7, shutdown_requested := false }
      { alreadyExited := false, termSig := .ok, termFallbackRaises := false,
        waitTerm := .timedOut, killSig := .ok, killFallbackRaises := false,
        waitKill := .timedOut }).process = none :=
  stop_always_clears_handle _ _ rfl

/-- Claim C9: calling `start_server` while a tracked live process exists
returns success immediately, with the whole state unchanged (in
particular the process handle) and no spawn performed.  The hypothesis
`model_path ≠ ""` holds in every reachable state with a tracked process,
by `reachable_backend_inv`. -/
theorem start_idempotent_when_running (st : BackendState) (o : StartOracle)
    (p : Nat) (hm : st.model_path ≠ "") (hp : st.process = some p)
    (halive : o.trackedAlive = true) :
    start_server st o = (st, true, []) := by
  unfold start_server
  simp [hm, hp, halive]

/-- Witness for C9 at a concrete running supervisor. -/
theorem start_idempotent_when_running_witness :
    start_server
      { model_path := "m", process := some 7, shutdown_requested := false }
      { trackedAlive := true, portInUse := false, spawn := .ok 8,
        ready := true,
        stopO := { alreadyExited := false, termSig := .ok,
                   termFallbackRaises := false, waitTerm := .timedOut,
                   killSig := .ok, killFallbackRaises := false,
                   waitKill := .timedOut } } =
    ({ model_path := "m", process := some 7, shutdown_requested := false },
      true, []) :=
  start_idempotent_when_running _ _ 7 (by decide) rfl rfl

end DetInf

namespace DetInf

/-- Counterexample to claim C8: in a fully successful launch the
environment snapshot is collected during `InferenceServer.__init__`,
i.e. among the first two launch events and strictly before
`backend.start_server()` is invoked — not "only after start()
succeeds" as the claim states. -/
theorem snapshot_collected_before_start :
    cliLaunch { collect := some "envjson", backendStart := true,
                bindOk := true } =
      ([.initBackend, .collectEnv, .startBackend, .bindListener, .serve],
        true) ∧
    (cliLaunch { collect := some "envjson", backendStart := true,
                 bindOk := true }).1.take 2 =
      [.initBackend, .collectEnv] :=
  ⟨rfl, rfl⟩

/-- Claim C8 as amended: the snapshot is collected at construction time,
before the supervisor is started; a collection failure aborts the launch
before any backend start or bind attempt; `start()` runs synchronously
after construction and its failure aborts the launch before the listener
is bound; the listener is bound and serving begins only after `start()`
succeeds. -/
theorem startup_order_amended (o : LaunchOracle) :
    (o.collect = none →
      cliLaunch o = ([.initBackend, .collectEnv], false)) ∧
    (o.collect ≠ none → o.backendStart = false →
      cliLaunch o = ([.initBackend, .collectEnv, .startBackend], false)) ∧
    (o.collect ≠ none → o.backendStart = true → o.bindOk = false →
      cliLaunch o = ([.initBackend, .collectEnv, .startBackend], false)) ∧
    (o.collect ≠ none → o.backendStart = true → o.bindOk = true →
      cliLaunch o =
        ([.initBackend, .collectEnv, .startBackend, .bindListener, .serve],
          true)) := by
  refine ⟨fun h1 => ?_, fun h1 h2 => ?_, fun h1 h2 h3 => ?_,
    fun h1 h2 h3 => ?_⟩ <;>
    [skip;
     obtain ⟨s, hs⟩ := Option.ne_none_iff_exists'.mp h1;
     obtain ⟨s, hs⟩ := Option.ne_none_iff_exists'.mp h1;
     obtain ⟨s, hs⟩ := Option.ne_none_iff_exists'.mp h1] <;>
    simp [cliLaunch, serverInit, serverStart, *]

/-- Witness for the amended C8 at a failing snapshot collection: the
launch aborts with no backend start and no bind. -/
theorem startup_order_amended_witness :
    cliLaunch { collect := none, backendStart := true, bindOk := true } =
      ([.initBackend, .collectEnv], false) :=
  (startup_order_amended
    { collect := none, backendStart := true, bindOk := true }).1 rfl

end DetInf

namespace DetInf

/-- Counterexample to claim C4: routing uses `startswith`, so a POST to
`/v1/completionsX` — which is not one of the two completion paths — is
proxied upstream (status 200 here, outbound attempt made) instead of
receiving the 404 the claim requires for "every other path". -/
theorem post_route_counterexample :
    (do_POST (some { running := true, baseUrl := "u" }) none parseNone
        dumpsBytes "/v1/completionsX" (.success 200 [] [9, 9])).1.status =
      200 ∧
    (do_POST (some { running := true, baseUrl := "u" }) none parseNone
        dumpsBytes "/v1/completionsX" (.success 200 [] [9, 9])).2 = true ∧
    ¬ (do_POST (some { running := true, baseUrl := "u" }) none parseNone
        dumpsBytes "/v1/completionsX" (.success 200 [] [9, 9])).1.status =
      404 := by
  refine ⟨by decide, by decide, by decide⟩

/-- Claim C4 as amended: POST requests are accepted exactly on paths
prefixed by `/v1/completions` or `/v1/chat/completions`, GET exactly on
the path `/health`; every other path/method combination receives a 404
response whose body is the serialised `{error: {code, message,
type: "proxy_error"}}` object. -/
theorem routing_amended (backend : Option BackendView)
    (envInfo : Option String) (parse : Bytes → Option Json)
    (dumps : Json → Bytes) (path : String) (upstream : UpstreamResult)
    (healthy : Bool) :
    (isCompletionPath path = true →
      do_POST backend envInfo parse dumps path upstream =
        proxy_to_backend backend envInfo parse dumps path upstream) ∧
    (isCompletionPath path = false →
      (do_POST backend envInfo parse dumps path upstream).1.status = 404 ∧
      (do_POST backend envInfo parse dumps path upstream).1.body =
        dumps (errorJson 404 "Not Found"
          ("Endpoint " ++ path ++ " not supported")) ∧
      (do_POST backend envInfo parse dumps path upstream).2 = false) ∧
    (path = "/health" →
      do_GET backend healthy dumps path =
        send_health_response backend healthy dumps) ∧
    (path ≠ "/health" →
      (do_GET backend healthy dumps path).status = 404 ∧
      (do_GET backend healthy dumps path).body =
        dumps (errorJson 404 "Not Found"
          ("Endpoint " ++ path ++ " not found"))) ∧
    (∀ code msg detail,
      errorType (errorJson code msg detail) = some (.str "proxy_error")) := by
  refine ⟨fun h => ?_, fun h => ?_, fun h => ?_, fun h => ?_, ?_⟩
  · simp [do_POST, h]
  · simp [do_POST, h, send_error_response]
  · simp [do_GET, h]
  · simp [do_GET, h, send_error_response]
  · intro code msg detail
    by_cases hd : detail = "" <;>
      simp [errorType, errorJson, Json.getKey, hd]

/-- Witness for the amended C4 at the rejected path `/nope`. -/
theorem routing_amended_witness :
    (do_POST (some { running := true, baseUrl := "u" }) none parseNone
        dumpsBytes "/nope" (.success 200 [] [])).1.status = 404 ∧
    (do_POST (some { running := true, baseUrl := "u" }) none parseNone
        dumpsBytes "/nope" (.success 200 [] [])).1.body =
      dumpsBytes (errorJson 404 "Not Found" "Endpoint /nope not supported") ∧
    (do_POST (some { running := true, baseUrl := "u" }) none parseNone
        dumpsBytes "/nope" (.success 200 [] [])).2 = false :=
  (routing_amended (some { running := true, baseUrl := "u" }) none parseNone
    dumpsBytes "/nope" (.success 200 [] []) true).2.1 (by decide)

end DetInf

namespace DetInf

/-- The handler's success-path header filter agrees pointwise with the
retention predicate of the amended claim C5. -/
theorem relayHeaders_eq_filter (headers : List (String × String))
    (si : Bool) : relayHeaders headers si = headers.filter (amendedKeep si) := by
  unfold relayHeaders amendedKeep
  apply List.filter_congr
  intro p _
  simp only [Bool.not_or, Bool.and_assoc]

/-- Counterexample to claim C5: with a snapshot present and a completion
path but a non-JSON upstream body, no injection occurs (the relayed body
equals the upstream body), yet the upstream `Content-Encoding: gzip`
header is excluded and the upstream `Content-Length: 5` is replaced by a
recomputed `Content-Length: 2` — both changes the claim permits only
"when injection actually occurred". -/
theorem header_relay_counterexample :
    (proxy_to_backend (some { running := true, baseUrl := "u" })
        (some "snap") parseNone dumpsBytes "/v1/completions"
        (.success 200
          [("Content-Type", "text/plain"), ("Content-Encoding", "gzip"),
           ("Content-Length", "5"), ("X-Foo", "bar")]
          [104, 105])).1.body = [104, 105] ∧
    (proxy_to_backend (some { running := true, baseUrl := "u" })
        (some "snap") parseNone dumpsBytes "/v1/completions"
        (.success 200
          [("Content-Type", "text/plain"), ("Content-Encoding", "gzip"),
           ("Content-Length", "5"), ("X-Foo", "bar")]
          [104, 105])).1.headers =
      [("Content-Type", "text/plain"), ("X-Foo", "bar"),
       ("Content-Length", "2")] :=
  ⟨by decide, by decide⟩

/-- Claim C5 as amended: for every successful upstream response, if the
injection attempt does not raise (injection not attempted, non-JSON
content type, unparseable body, or a parsed object), every upstream
header is relayed unchanged except that `Connection` and
`Transfer-Encoding` are always excluded, `Content-Length` is always
excluded with a recomputed `Content-Length` appended last, and
`Content-Encoding` is excluded exactly when injection was attempted
(snapshot present and completion path), whether or not the body was
actually modified; if instead injection was attempted and the body
parsed to a non-object JSON value, the handler responds 500 with a
structured error and copies no upstream header at all. -/
theorem header_relay_amended (b : BackendView) (envInfo : Option String)
    (parse : Bytes → Option Json) (dumps : Json → Bytes) (path : String)
    (status : Nat) (headers : List (String × String)) (body : Bytes)
    (hrun : b.running = true) :
    (∀ body2 : Bytes,
      (if should_inject_environment envInfo path then
          inject_environment_payload parse dumps (envInfo.getD "") body
            (headerGet headers "Content-Type")
        else .ok body) = .ok body2 →
      (proxy_to_backend (some b) envInfo parse dumps path
          (.success status headers body)).1.headers =
        headers.filter
            (amendedKeep (should_inject_environment envInfo path)) ++
          [("Content-Length", toString body2.length)] ∧
      (proxy_to_backend (some b) envInfo parse dumps path
          (.success status headers body)).1.body = body2) ∧
    (∀ e : PyErr,
      (if should_inject_environment envInfo path then
          inject_environment_payload parse dumps (envInfo.getD "") body
            (headerGet headers "Content-Type")
        else .ok body) = .error e →
      (proxy_to_backend (some b) envInfo parse dumps path
          (.success status headers body)).1 =
        send_error_response dumps 500 "Internal Server Error"
          "unhandled exception while proxying") := by
  constructor
  · intro body2 hok
    unfold proxy_to_backend
    rw [← relayHeaders_eq_filter]
    simp only [hrun, Bool.true_eq_false, if_false, hok]
    constructor <;> trivial
  · intro e herr
    unfold proxy_to_backend
    simp only [hrun, Bool.true_eq_false, if_false, herr]

/-- Witness for the amended C5 at both branches: injection attempted but
skipped on a non-JSON body (filtered headers and recomputed length
appear), and injection attempted on a body parsing to a JSON array
(the response is the 500 error response). -/
theorem header_relay_amended_witness :
    ((proxy_to_backend (some { running := true, baseUrl := "u" })
        (some "snap") parseNone dumpsBytes "/v1/completions"
        (.success 200
          [("Content-Type", "text/plain"), ("Content-Encoding", "gzip")]
          [1, 2])).1.headers =
      [("Content-Type", "text/plain"), ("Content-Encoding", "gzip")].filter
          (amendedKeep
            (should_inject_environment (some "snap") "/v1/completions")) ++
        [("Content-Length", toString ([1, 2] : Bytes).length)] ∧
    (proxy_to_backend (some { running := true, baseUrl := "u" })
        (some "snap") parseNone dumpsBytes "/v1/completions"
        (.success 200
          [("Content-Type", "text/plain"), ("Content-Encoding", "gzip")]
          [1, 2])).1.body = [1, 2]) ∧
    (proxy_to_backend (some { running := true, baseUrl := "u" })
        (some "snap") parseArr dumpsBytes "/v1/completions"
        (.success 200 [("Content-Type", "application/json")]
          [91, 49, 44, 50, 93])).1 =
      send_error_response dumpsBytes 500 "Internal Server Error"
        "unhandled exception while proxying" :=
  ⟨(header_relay_amended _ _ parseNone dumpsBytes _ _ _ _ rfl).1 [1, 2] rfl,
   (header_relay_amended _ _ parseArr dumpsBytes _ _ _ _ rfl).2
     .typeError rfl⟩

end DetInf

namespace DetInf

/-- Counterexample to claim C1: when the upstream JSON object already has
a top-level `environment` key, `payload["environment"] = ...` overwrites
it in place, so the relayed body serialises an object with the same
single key and a replaced value — it does not equal the original object
plus one new top-level key for any injected value. -/
theorem injection_overwrites_counterexample :
    (proxy_to_backend (some { running := true, baseUrl := "u" })
        (some "snap") parseEnvOld dumpsBytes "/v1/completions"
        (.success 200 [("Content-Type", "application/json")]
          (strBytes "\x7b\"environment\":\"old\"\x7d"))).1.body =
      dumpsBytes (.obj [("environment", .str "snap")]) ∧
    ¬ ∃ v : Json,
        dictSet [("environment", .str "old")] "environment" (.str "snap") =
          [("environment", .str "old")] ++ [("environment", v)] := by
  constructor
  · have hp : parseEnvOld (strBytes "\x7b\"environment\":\"old\"\x7d") =
        some (.obj [("environment", .str "old")]) := rfl
    have hsi : should_inject_environment (some "snap") "/v1/completions" =
        true := by decide
    have hct : jsonContentType
        (headerGet [("Content-Type", "application/json")] "Content-Type") =
        true := by decide
    simp [proxy_to_backend, hsi, inject_environment_payload, hct, hp, dictSet]
  · rintro ⟨v, h⟩
    have hlen := congrArg List.length h
    simp [dictSet] at hlen

/-- Claim C1 as amended: for a JSON completion response whose object does
not already contain a top-level `environment` key, the relayed body is
the serialisation of the original object plus exactly one new top-level
key `environment`, appended last, whose value is the snapshot string;
that string is the JSON serialisation of the snapshot dict — it parses
back (`parseJsonStr`) to a JSON object whose top-level keys are exactly
`driver_version`, `cuda_version`, `gpu_count` and `gpus`.  (A
pre-existing `environment` key is instead overwritten in place, per the
counterexample.) -/
theorem injection_superset_amended (b : BackendView) (env : GPUEnvironment)
    (parse : Bytes → Option Json) (dumps : Json → Bytes) (path : String)
    (status : Nat) (headers : List (String × String)) (body : Bytes)
    (fs : List (String × Json))
    (hrun : b.running = true)
    (hpath : isCompletionPath path = true)
    (hct : jsonContentType (headerGet headers "Content-Type") = true)
    (hparse : parse body = some (.obj fs))
    (hfresh : ∀ p ∈ fs, p.1 ≠ "environment") :
    (proxy_to_backend (some b) (some env.to_json) parse dumps path
        (.success status headers body)).1.body =
      dumps (.obj (fs ++ [("environment", .str env.to_json)])) ∧
    Json.keys env.to_dict =
      ["driver_version", "cuda_version", "gpu_count", "gpus"] ∧
    env.to_json = Json.render env.to_dict ∧
    parseJsonStr env.to_json = some env.to_dict := by
  refine ⟨?_, rfl, rfl, parse_to_json env⟩
  have hsi : should_inject_environment (some env.to_json) path = true := by
    simp [should_inject_environment, to_json_ne_empty env, hpath]
  unfold proxy_to_backend
  simp only [hrun, Bool.true_eq_false, if_false, hsi, if_true,
    inject_environment_payload, hct, Bool.true_eq_false, Option.getD_some,
    hparse]
  rw [dictSet_append fs _ _ hfresh]

/-- Witness for the amended C1 at the spec's scenario: a backend reply
`{"id":"abc"}` with JSON content type and a concrete snapshot. -/
theorem injection_superset_amended_witness :
    (proxy_to_backend (some { running := true, baseUrl := "u" })
        (some envW.to_json) parseIdAbc dumpsBytes "/v1/chat/completions"
        (.success 200 [("Content-Type", "application/json")]
          (strBytes "\x7b\"id\":\"abc\"\x7d"))).1.body =
      dumpsBytes (.obj ([("id", .str "abc")] ++
        [("environment", .str envW.to_json)])) ∧
    Json.keys envW.to_dict =
      ["driver_version", "cuda_version", "gpu_count", "gpus"] ∧
    envW.to_json = Json.render envW.to_dict ∧
    parseJsonStr envW.to_json = some envW.to_dict :=
  injection_superset_amended _ envW parseIdAbc dumpsBytes _ _ _ _
    [("id", .str "abc")] rfl (by decide) (by decide) rfl (by decide)

end DetInf
